import Mathlib

/-!
Verification of the `dir_cleaner` crate (`src/lib.rs`, `src/main.rs`) against its
specification.

The crate walks a directory tree looking for files whose base name equals a
target name, shows the matches, and interactively deletes selected ones.
This file gives a shallow embedding of the two components:

* the traversal engine `get_dir_files` (lib.rs lines 213-250), modelled over an
  inductive snapshot of the directory tree as the filesystem reports it; and
* the interactive controller `run` (lib.rs lines 50-101), modelled as a pure
  function of the argument list, the scan result, the set of existing file
  paths and the list of stdin lines.

The filesystem, chrono timestamp formatting and console I/O are external
collaborators of the crate; they appear here as data: a directory listing is a
list of `Entry` values (what `fs::read_dir` yields), a creation timestamp is
the already-formatted string chrono would produce for it (`created = none`
models `Metadata::created` returning `Err`), and stdin is a list of lines.
Strings are modelled with Lean `String`s; `String` equality is byte equality,
as in Rust. `strTrim` models `str::trim` and `parseUsize` models
`str::parse::<usize>` on a 64-bit target.
-/

namespace DirCleaner

/-- Mirrors `pub struct File` (lib.rs 117-123): `name`, `folder`,
`creation_date` public, `path` private; all `String`s. -/
structure File where
  name : String
  folder : String
  creation_date : String
  path : String
deriving DecidableEq

/-- Mirrors `File::new` (lib.rs 137-144): plain field assignment of the four
parameters (Rust additionally converts `&str` to owned `String`, the identity
in this model). -/
def File.new (name folder creation_date path : String) : File :=
  { name := name, folder := folder, creation_date := creation_date, path := path }

/-- The line `File::show_info` (lib.rs 163-168) prints for a record. -/
def File.show_info (f : File) : String :=
  "\tfile name: " ++ f.name ++ " \n\tdirectory: " ++ f.folder ++
    " \n\tcreation date: " ++ f.creation_date

/-- One slot of a directory listing, as the `fs::read_dir` iterator yields it
(an `io::Result<DirEntry>` in Rust).

* `err`: the iterator yielded `Err` for this slot; `get_dir_files` filters
  these out with `.filter(|f| f.is_ok())` (lib.rs 216). Such a slot carries no
  further information.
* `file nm metaOk created`: an entry whose path `is_file()`; `metaOk = false`
  models `DirEntry::metadata()` returning `Err` (unwrapped at lib.rs 220),
  `created` is the chrono-formatted creation time, `none` when
  `Metadata::created()` returns `Err` (unwrapped at lib.rs 236).
* `dir nm metaOk listing`: an entry whose path is not a regular file, so the
  code pushes it onto `sub_dirs` and later calls `fs::read_dir` on it;
  `listing = none` models that read failing (an unreadable directory, or a
  non-file non-directory entry such as a broken link, lib.rs 214 via 245).

The model is race-free: the subtree recorded in a `dir` entry is what the
recursive call will see. Entry names never contain a path separator. -/
inductive Entry where
  | err : Entry
  | file (name : String) (metaOk : Bool) (created : Option String) : Entry
  | dir (name : String) (metaOk : Bool) (listing : Option (List Entry)) : Entry

/-- How a traversal can fail to return: `ioError` is the `std::io::Error`
returned through `?` (lib.rs 214 and 245); `panicked` models a panic from one
of the `unwrap()` calls (lib.rs 220, 233-236), which aborts the process and is
not a return value at all. -/
inductive FsError where
  | ioError : FsError
  | panicked : FsError
deriving DecidableEq

/-- Full path of a directory entry: `DirEntry::path()` joins the scanned
directory's path with the entry's file name (lib.rs 219). The model always
inserts one separator; path strings are opaque identifiers here, so the
trailing-slash special case of `Path::join` is not modelled. -/
def pathJoin (p n : String) : String := p ++ "/" ++ n

/-- The iterator chain of `get_dir_files` (lib.rs 216-242) restricted to one
directory: walk the listing in order and build the `Vec<File>` that `collect`
produces, or the panic that aborts it.

Per `Ok` entry the chain runs, in this order: `d.metadata().unwrap()` (panic
when the metadata query fails — this happens for every entry, directories
included, before anything else), the `is_file` partition (a non-file entry is
pushed onto `sub_dirs` and dropped from the chain; see `gdfSubs` for what the
recursion then does with it), `metadata.created().unwrap()` (panic when the
creation time is unavailable — note this runs before the name filter, so a
non-matching file can panic the traversal), `File::new`, and last the
`name == file_name` filter. `Err` slots were already dropped by
`.filter(|f| f.is_ok())`. -/
def collectOwn (path file_name : String) : List Entry → Except FsError (List File)
  | [] => .ok []
  | .err :: rest => collectOwn path file_name rest
  | .file _ false _ :: _ => .error .panicked
  | .file _ true none :: _ => .error .panicked
  | .file n true (some d) :: rest =>
    match collectOwn path file_name rest with
    | .error e => .error e
    | .ok fs =>
      if n = file_name then .ok (File.new n path d (pathJoin path n) :: fs) else .ok fs
  | .dir _ false _ :: _ => .error .panicked
  | .dir _ true _ :: rest => collectOwn path file_name rest

/-- The `for sub_dir in sub_dirs` loop of `get_dir_files` (lib.rs 244-247):
concatenation of `get_dir_files(sub_dir, file_name)?` over the non-file
entries of the listing, in listing order. The body of the recursive
`get_dir_files` call is inlined here (its `fs::read_dir` failure, its own
`collect`, and its own subdirectory loop) so that the recursion is over the
tree structure. A `metaOk = false` directory entry never reaches this loop:
the chain already panicked on it, and `collectOwn` reports that. -/
def gdfSubs (path file_name : String) : List Entry → Except FsError (List File)
  | [] => .ok []
  | .err :: rest => gdfSubs path file_name rest
  | .file _ _ _ :: rest => gdfSubs path file_name rest
  | .dir _ _ none :: _ => .error .ioError
  | .dir n _ (some l) :: rest =>
    match collectOwn (pathJoin path n) file_name l with
    | .error e => .error e
    | .ok own =>
      match gdfSubs (pathJoin path n) file_name l with
      | .error e => .error e
      | .ok subs =>
        match gdfSubs path file_name rest with
        | .error e => .error e
        | .ok r => .ok ((own ++ subs) ++ r)

/-- Model of `pub fn get_dir_files(path, file_name)` (lib.rs 213-250).
`root` is what `fs::read_dir(path)` reports for `path`: `none` when the read
fails (missing path, permission denied, not a directory), in which case the
`?` at lib.rs 214 returns the `io::Error`; otherwise the listing. The chain
collects the current directory's matching files first (`collectOwn`), then the
loop appends each subdirectory's recursive result (`gdfSubs`). A panic during
the chain precedes the subdirectory loop, as in the source. -/
def get_dir_files (path file_name : String) (root : Option (List Entry)) :
    Except FsError (List File) :=
  match root with
  | none => .error .ioError
  | some entries =>
    match collectOwn path file_name entries with
    | .error e => .error e
    | .ok files =>
      match gdfSubs path file_name entries with
      | .error e => .error e
      | .ok subFiles => .ok (files ++ subFiles)

/-! Specification-side descriptions of the traversal, written from the spec's
words (section 4.1 and section 8) rather than from the iterator chain; the
theorems below compare `get_dir_files` against them. -/

/-- Spec-side: the records for the scanned directory's own matching files, in
listing order ("for each file entry whose base name equals `targetName`
exactly, construct a FileRecord", spec 4.1 step 3). A file whose creation
time is unavailable has no record (on such a tree the reference aborts,
spec 4.1 step 3, so a successful traversal never meets one). -/
def ownMatches (path file_name : String) (es : List Entry) : List File :=
  es.filterMap fun e =>
    match e with
    | .file n _ (some d) =>
      if n = file_name then some (File.new n path d (pathJoin path n)) else none
    | _ => none

/-- Spec-side: the concatenation, in listing order, of the full recursive scan
of each subdirectory ("recursively invoke scan with that subdirectory as the
new root, and append its results after the current directory's own matches",
spec 4.1 step 4). An unreadable subdirectory contributes nothing here; a
successful traversal never meets one. -/
def specSubs (path file_name : String) : List Entry → List File
  | [] => []
  | .err :: rest => specSubs path file_name rest
  | .file _ _ _ :: rest => specSubs path file_name rest
  | .dir _ _ none :: rest => specSubs path file_name rest
  | .dir n _ (some l) :: rest =>
    (ownMatches (pathJoin path n) file_name l ++ specSubs (pathJoin path n) file_name l) ++
      specSubs path file_name rest

/-- Spec-side: the whole pre-order scan result, current directory's matches
before all subdirectory results (spec 4.1 steps 3-5). -/
def specScan (path file_name : String) (root : Option (List Entry)) : List File :=
  match root with
  | none => []
  | some es => ownMatches path file_name es ++ specSubs path file_name es

/-- Spec-side: every file record of the tree, at any depth, with no name
filter, in listing order with each subdirectory's files at the subdirectory's
position ("the set of files in the tree (at any depth)", spec section 8).
Files behind an unreadable slot, and files whose creation time is
unavailable, have no record; a successful traversal never meets either. -/
def allFilesL (path : String) : List Entry → List File
  | [] => []
  | .err :: rest => allFilesL path rest
  | .file _ _ none :: rest => allFilesL path rest
  | .file n _ (some d) :: rest => File.new n path d (pathJoin path n) :: allFilesL path rest
  | .dir _ _ none :: rest => allFilesL path rest
  | .dir n _ (some l) :: rest => allFilesL (pathJoin path n) l ++ allFilesL path rest

/-- Spec-side: `allFilesL` from the root listing. -/
def allFiles (path : String) (root : Option (List Entry)) : List File :=
  match root with
  | none => []
  | some es => allFilesL path es

/-! The interactive controller (`run`, lib.rs 50-101). -/

/-- Model of `str::trim` (applied by `run` to every line it reads): drop
whitespace from both ends. -/
def strTrim (s : String) : String :=
  String.mk (((s.data.dropWhile Char.isWhitespace).reverse.dropWhile Char.isWhitespace).reverse)

/-- Largest value of `usize` on a 64-bit target. -/
def USIZE_MAX : Nat := 2 ^ 64 - 1

/-- Model of `str::parse::<usize>()` (lib.rs 83): an optional leading `+`
sign, then one or more ASCII digits, rejecting overflow past `USIZE_MAX`;
everything else — the empty string, a `-` sign, any non-digit — is `Err`,
here `none`. -/
def parseUsize (s : String) : Option Nat :=
  let ds := match s.data with
    | '+' :: rest => rest
    | cs => cs
  if ds = [] then none
  else if ds.all Char.isDigit then
    let v := ds.foldl (fun acc c => acc * 10 + (c.toNat - '0'.toNat)) 0
    if v ≤ USIZE_MAX then some v else none
  else none

/-- Model of `Vec::swap_remove(i)` (lib.rs 96): the element at `i` is
returned, the last element is moved into its slot, and the length shrinks by
one; `none` when `i` is out of bounds (where Rust would panic — the caller
checks the bound first). -/
def swapRemove (l : List File) (i : Nat) : Option (File × List File) :=
  match l[i]? with
  | none => none
  | some x => some (x, (l.set i (l.getLastD x)).dropLast)

/-- State the deletion loop acts on: `files` is the in-memory working
collection `files_info`, `fs` the paths of the files that currently exist on
disk, `out` the non-prompt lines printed so far (prompt text is implied by
input consumption and not recorded). -/
structure LoopState where
  files : List File
  fs : List String
  out : List String
deriving DecidableEq

/-- How the deletion loop (lib.rs 74-99) can end. `finished`: a `break` was
reached and `run` goes on to return `Ok(())`. `failed`: `file.delete()?`
returned an `io::Error` (lib.rs 97), aborting `run` with that error.
`outOfInput` is a model artifact: the scripted stdin ran out (real stdin at
end-of-file feeds empty lines forever, so the reference would re-prompt
indefinitely; no claim exercises this). -/
inductive LoopResult where
  | finished (s : LoopState) : LoopResult
  | failed (s : LoopState) : LoopResult
  | outOfInput (s : LoopState) : LoopResult
deriving DecidableEq

/-- The deletion loop (lib.rs 74-99), one iteration per stdin line. In source
order: trim; `done` breaks with "Good Bye!"; a failed `parse::<usize>` prints
"Invalid number provided." and continues; an index with
`index >= files_info.len() + 1 || index <= 0` prints "Please provide one of
the listed numbers!" and breaks; otherwise `swap_remove(index - 1)` mutates
the collection, `file.delete()?` removes the file from disk (failing — here,
the path not existing — aborts the run), "File deleted!" is printed and the
loop continues. The `swapRemove = none` arm is unreachable: the bound check
guarantees `index - 1` is in range. -/
def deletionLoop (s : LoopState) : List String → LoopResult
  | [] => .outOfInput s
  | answer :: rest =>
    let cleaned := strTrim answer
    if cleaned = "done" then
      .finished { s with out := s.out ++ ["Good Bye!"] }
    else
      match parseUsize cleaned with
      | none => deletionLoop { s with out := s.out ++ ["Invalid number provided."] } rest
      | some index =>
        if index ≥ s.files.length + 1 ∨ index ≤ 0 then
          .finished { s with out := s.out ++ ["Please provide one of the listed numbers!"] }
        else
          match swapRemove s.files (index - 1) with
          | none => .failed s
          | some (file, files2) =>
            if file.path ∈ s.fs then
              deletionLoop
                { files := files2, fs := s.fs.erase file.path,
                  out := s.out ++ ["File deleted!"] } rest
            else
              .failed { files := files2, fs := s.fs, out := s.out }

/-- Outcome of `run` (lib.rs 50-101) together with the final state.
`ok` is `Ok(())` (process exit status 0); `errArgs` the `ArgsError` for a
missing directory argument (lib.rs 55); `errScan` the propagated traversal
`io::Error` (lib.rs 62); `panicked` a traversal panic; `errDelete` a
propagated `file.delete()` error (lib.rs 97); `noInput` the scripted-stdin
model artifact. -/
inductive RunOutcome where
  | ok (s : LoopState) : RunOutcome
  | errArgs : RunOutcome
  | errScan : RunOutcome
  | panicked : RunOutcome
  | errDelete (s : LoopState) : RunOutcome
  | noInput (s : LoopState) : RunOutcome
deriving DecidableEq

/-- Folds a loop result into the run's outcome: a `break` leads to `Ok(())`
at lib.rs 100, a deletion error is returned by `?` at lib.rs 97. -/
def loopToRun : LoopResult → RunOutcome
  | .finished s => .ok s
  | .failed s => .errDelete s
  | .outOfInput s => .noInput s

/-- The result display of lib.rs 63-66: for each record, 1-based, the line
"Entry i" then the `show_info` block. -/
def displayEntries (files : List File) : List String :=
  (files.enum.map fun pr => ["Entry " ++ toString (pr.1 + 1), pr.2.show_info]).flatten

/-- Model of `pub fn run(args)` (lib.rs 50-101). `args` is the invocation
argument list (the first element is the program name and is discarded,
lib.rs 51); `root` is what `fs::read_dir` reports for the directory named by
the second argument; `fs` the paths existing on disk; `inputs` the stdin
lines. Steps, in source order: missing directory argument fails with
`ArgsError`; the first line, trimmed, is the target file name;
`get_dir_files` runs (its `io::Error` propagates, a panic aborts); the
matches are displayed; a trimmed `"y"` to the keep-all prompt returns
`Ok(())` with "Good Bye!"; anything else enters the deletion loop. -/
def run (args : List String) (root : Option (List Entry)) (fs : List String)
    (inputs : List String) : RunOutcome :=
  match args with
  | [] => .errArgs
  | [_] => .errArgs
  | _ :: directory :: _ =>
    match inputs with
    | [] => .noInput { files := [], fs := fs, out := [] }
    | nameLine :: inputs1 =>
      match get_dir_files directory (strTrim nameLine) root with
      | .error .ioError => .errScan
      | .error .panicked => .panicked
      | .ok files =>
        match inputs1 with
        | [] => .noInput { files := files, fs := fs, out := displayEntries files }
        | answer :: inputs2 =>
          if strTrim answer = "y" then
            .ok { files := files, fs := fs, out := displayEntries files ++ ["Good Bye!"] }
          else
            loopToRun (deletionLoop { files := files, fs := fs, out := displayEntries files }
              inputs2)

/-! Concrete example data, used by the witnesses below: a root directory `r`
holding `dup.txt` and a subdirectory `sub` with another `dup.txt` and an
`other.txt`. -/

/-- Listing of the example subdirectory `r/sub`. -/
def egSub : List Entry :=
  [.file "dup.txt" true (some "d2"), .file "other.txt" true (some "d3")]

/-- Listing of the example root `r`. -/
def egTree : List Entry :=
  [.file "dup.txt" true (some "d1"), .dir "sub" true (some egSub)]

/-- The record for `r/dup.txt`. -/
def egRec1 : File := File.new "dup.txt" "r" "d1" "r/dup.txt"

/-- The record for `r/sub/dup.txt`. -/
def egRec2 : File := File.new "dup.txt" "r/sub" "d2" "r/sub/dup.txt"

/-! Unfolding equations for the well-founded recursive definitions, in the
form the proofs below use them. -/

theorem gdfSubs_nil (path file_name : String) : gdfSubs path file_name [] = .ok [] := by
  simp [gdfSubs]

theorem gdfSubs_err_cons (path file_name : String) (rest : List Entry) :
    gdfSubs path file_name (.err :: rest) = gdfSubs path file_name rest := by
  simp [gdfSubs]

theorem gdfSubs_file_cons (path file_name n : String) (mk : Bool) (c : Option String)
    (rest : List Entry) :
    gdfSubs path file_name (.file n mk c :: rest) = gdfSubs path file_name rest := by
  simp [gdfSubs]

theorem gdfSubs_dir_none (path file_name n : String) (mk : Bool) (rest : List Entry) :
    gdfSubs path file_name (.dir n mk none :: rest) = .error .ioError := by
  simp [gdfSubs]

theorem gdfSubs_dir_cons (path file_name n : String) (mk : Bool) (l rest : List Entry)
    (own subs r : List File)
    (h1 : collectOwn (pathJoin path n) file_name l = .ok own)
    (h2 : gdfSubs (pathJoin path n) file_name l = .ok subs)
    (h3 : gdfSubs path file_name rest = .ok r) :
    gdfSubs path file_name (.dir n mk (some l) :: rest) = .ok ((own ++ subs) ++ r) := by
  simp [gdfSubs, h1, h2, h3]

theorem gdfSubs_dir_collect_err (path file_name n : String) (mk : Bool) (l rest : List Entry)
    (e : FsError) (h : collectOwn (pathJoin path n) file_name l = .error e) :
    gdfSubs path file_name (.dir n mk (some l) :: rest) = .error e := by
  simp [gdfSubs, h]

theorem gdfSubs_dir_sub_err (path file_name n : String) (mk : Bool) (l rest : List Entry)
    (own : List File) (e : FsError)
    (h1 : collectOwn (pathJoin path n) file_name l = .ok own)
    (h2 : gdfSubs (pathJoin path n) file_name l = .error e) :
    gdfSubs path file_name (.dir n mk (some l) :: rest) = .error e := by
  simp [gdfSubs, h1, h2]

theorem gdfSubs_dir_rest_err (path file_name n : String) (mk : Bool) (l rest : List Entry)
    (own subs : List File) (e : FsError)
    (h1 : collectOwn (pathJoin path n) file_name l = .ok own)
    (h2 : gdfSubs (pathJoin path n) file_name l = .ok subs)
    (h3 : gdfSubs path file_name rest = .error e) :
    gdfSubs path file_name (.dir n mk (some l) :: rest) = .error e := by
  simp [gdfSubs, h1, h2, h3]

theorem get_dir_files_none (path file_name : String) :
    get_dir_files path file_name none = .error .ioError := rfl

theorem get_dir_files_some (path file_name : String) (es : List Entry)
    (own subs : List File)
    (h1 : collectOwn path file_name es = .ok own)
    (h2 : gdfSubs path file_name es = .ok subs) :
    get_dir_files path file_name (some es) = .ok (own ++ subs) := by
  simp [get_dir_files, h1, h2]

theorem get_dir_files_collect_err (path file_name : String) (es : List Entry) (e : FsError)
    (h : collectOwn path file_name es = .error e) :
    get_dir_files path file_name (some es) = .error e := by
  simp [get_dir_files, h]

theorem get_dir_files_subs_err (path file_name : String) (es : List Entry)
    (own : List File) (e : FsError)
    (h1 : collectOwn path file_name es = .ok own)
    (h2 : gdfSubs path file_name es = .error e) :
    get_dir_files path file_name (some es) = .error e := by
  simp [get_dir_files, h1, h2]

theorem specSubs_nil (path file_name : String) : specSubs path file_name [] = [] := by
  simp [specSubs]

theorem specSubs_err_cons (path file_name : String) (rest : List Entry) :
    specSubs path file_name (.err :: rest) = specSubs path file_name rest := by
  simp [specSubs]

theorem specSubs_file_cons (path file_name n : String) (mk : Bool) (c : Option String)
    (rest : List Entry) :
    specSubs path file_name (.file n mk c :: rest) = specSubs path file_name rest := by
  simp [specSubs]

theorem specSubs_dir_none (path file_name n : String) (mk : Bool) (rest : List Entry) :
    specSubs path file_name (.dir n mk none :: rest) = specSubs path file_name rest := by
  simp [specSubs]

theorem specSubs_dir_some (path file_name n : String) (mk : Bool) (l rest : List Entry) :
    specSubs path file_name (.dir n mk (some l) :: rest) =
      (ownMatches (pathJoin path n) file_name l ++ specSubs (pathJoin path n) file_name l) ++
        specSubs path file_name rest := by
  simp [specSubs]

/-- A successful chain pass returns exactly the spec-side matches of the
scanned directory, in listing order. -/
theorem collectOwn_ok (path file_name : String) (es : List Entry) (fs : List File)
    (h : collectOwn path file_name es = .ok fs) : fs = ownMatches path file_name es := by
  induction es generalizing fs with
  | nil =>
    simp only [collectOwn, Except.ok.injEq] at h
    simp [ownMatches, ← h]
  | cons e rest ih =>
    cases e with
    | err =>
      simp only [collectOwn] at h
      rw [ih fs h]
      simp [ownMatches]
    | file n mk c =>
      cases mk with
      | false => simp [collectOwn] at h
      | true =>
        cases c with
        | none => simp [collectOwn] at h
        | some d =>
          cases hr : collectOwn path file_name rest with
          | error e => simp [collectOwn, hr] at h
          | ok fs2 =>
            simp only [collectOwn, hr] at h
            by_cases hn : n = file_name
            · simp only [if_pos hn, Except.ok.injEq] at h
              rw [← h, ih fs2 hr]
              simp [ownMatches, List.filterMap_cons, hn]
            · simp only [if_neg hn, Except.ok.injEq] at h
              rw [← h, ih fs2 hr]
              simp [ownMatches, List.filterMap_cons, hn]
    | dir n mk l =>
      cases mk with
      | false => simp [collectOwn] at h
      | true =>
        simp only [collectOwn] at h
        rw [ih fs h]
        simp [ownMatches]

/-- A successful subdirectory loop returns exactly the spec-side recursive
results, in listing order. -/
theorem gdfSubs_ok (path file_name : String) (es : List Entry) (fs : List File)
    (h : gdfSubs path file_name es = .ok fs) : fs = specSubs path file_name es := by
  match es with
  | [] =>
    rw [gdfSubs_nil] at h
    simp only [Except.ok.injEq] at h
    simp [specSubs_nil, ← h]
  | .err :: rest =>
    rw [gdfSubs_err_cons] at h
    rw [specSubs_err_cons]
    exact gdfSubs_ok path file_name rest fs h
  | .file n mk c :: rest =>
    rw [gdfSubs_file_cons] at h
    rw [specSubs_file_cons]
    exact gdfSubs_ok path file_name rest fs h
  | .dir n mk none :: rest =>
    rw [gdfSubs_dir_none] at h
    simp at h
  | .dir n mk (some l) :: rest =>
    cases hc : collectOwn (pathJoin path n) file_name l with
    | error e => rw [gdfSubs_dir_collect_err path file_name n mk l rest e hc] at h; simp at h
    | ok own =>
      cases hs : gdfSubs (pathJoin path n) file_name l with
      | error e => rw [gdfSubs_dir_sub_err path file_name n mk l rest own e hc hs] at h; simp at h
      | ok subs =>
        cases hrest : gdfSubs path file_name rest with
        | error e =>
          rw [gdfSubs_dir_rest_err path file_name n mk l rest own subs e hc hs hrest] at h
          simp at h
        | ok r =>
          rw [gdfSubs_dir_cons path file_name n mk l rest own subs r hc hs hrest] at h
          simp only [Except.ok.injEq] at h
          rw [specSubs_dir_some, ← h,
            collectOwn_ok (pathJoin path n) file_name l own hc,
            gdfSubs_ok (pathJoin path n) file_name l subs hs,
            gdfSubs_ok path file_name rest r hrest]
termination_by sizeOf es

/-- A successful traversal returns exactly the spec-side pre-order scan. -/
theorem get_dir_files_ok (path file_name : String) (root : Option (List Entry))
    (fs : List File) (h : get_dir_files path file_name root = .ok fs) :
    fs = specScan path file_name root := by
  match root with
  | none => rw [get_dir_files_none] at h; simp at h
  | some es =>
    cases hc : collectOwn path file_name es with
    | error e => rw [get_dir_files_collect_err path file_name es e hc] at h; simp at h
    | ok own =>
      cases hs : gdfSubs path file_name es with
      | error e => rw [get_dir_files_subs_err path file_name es own e hc hs] at h; simp at h
      | ok subs =>
        rw [get_dir_files_some path file_name es own subs hc hs] at h
        simp only [Except.ok.injEq] at h
        rw [specScan, ← h, collectOwn_ok path file_name es own hc,
          gdfSubs_ok path file_name es subs hs]

theorem allFilesL_nil (path : String) : allFilesL path [] = [] := by
  simp [allFilesL]

theorem allFilesL_err_cons (path : String) (rest : List Entry) :
    allFilesL path (.err :: rest) = allFilesL path rest := by
  simp [allFilesL]

theorem allFilesL_file_none (path n : String) (mk : Bool) (rest : List Entry) :
    allFilesL path (.file n mk none :: rest) = allFilesL path rest := by
  simp [allFilesL]

theorem allFilesL_file_some (path n d : String) (mk : Bool) (rest : List Entry) :
    allFilesL path (.file n mk (some d) :: rest) =
      File.new n path d (pathJoin path n) :: allFilesL path rest := by
  simp [allFilesL]

theorem allFilesL_dir_none (path n : String) (mk : Bool) (rest : List Entry) :
    allFilesL path (.dir n mk none :: rest) = allFilesL path rest := by
  simp [allFilesL]

theorem allFilesL_dir_some (path n : String) (mk : Bool) (l rest : List Entry) :
    allFilesL path (.dir n mk (some l) :: rest) =
      allFilesL (pathJoin path n) l ++ allFilesL path rest := by
  simp [allFilesL]

theorem ownMatches_nil (path file_name : String) : ownMatches path file_name [] = [] := rfl

theorem ownMatches_err_cons (path file_name : String) (rest : List Entry) :
    ownMatches path file_name (.err :: rest) = ownMatches path file_name rest := by
  simp [ownMatches, List.filterMap_cons]

theorem ownMatches_file_none (path file_name n : String) (mk : Bool) (rest : List Entry) :
    ownMatches path file_name (.file n mk none :: rest) = ownMatches path file_name rest := by
  simp [ownMatches, List.filterMap_cons]

theorem ownMatches_file_some (path file_name n d : String) (mk : Bool) (rest : List Entry) :
    ownMatches path file_name (.file n mk (some d) :: rest) =
      if n = file_name then
        File.new n path d (pathJoin path n) :: ownMatches path file_name rest
      else ownMatches path file_name rest := by
  by_cases hn : n = file_name <;> simp [ownMatches, List.filterMap_cons, hn]

theorem ownMatches_dir_cons (path file_name n : String) (mk : Bool)
    (l : Option (List Entry)) (rest : List Entry) :
    ownMatches path file_name (.dir n mk l :: rest) = ownMatches path file_name rest := by
  simp [ownMatches, List.filterMap_cons]

/-- Membership in the spec-side pre-order scan of a listing is exactly
membership in the tree's file records with a matching name. -/
theorem mem_scan_iff (path file_name : String) (r : File) (es : List Entry) :
    r ∈ ownMatches path file_name es ++ specSubs path file_name es ↔
      (r ∈ allFilesL path es ∧ r.name = file_name) := by
  match es with
  | [] => simp [ownMatches_nil, specSubs_nil, allFilesL_nil]
  | .err :: rest =>
    rw [ownMatches_err_cons, specSubs_err_cons, allFilesL_err_cons]
    exact mem_scan_iff path file_name r rest
  | .file n mk none :: rest =>
    rw [ownMatches_file_none, specSubs_file_cons, allFilesL_file_none]
    exact mem_scan_iff path file_name r rest
  | .file n mk (some d) :: rest =>
    rw [ownMatches_file_some, specSubs_file_cons, allFilesL_file_some]
    have ih := mem_scan_iff path file_name r rest
    by_cases hn : n = file_name
    · rw [if_pos hn]
      simp only [List.cons_append, List.mem_cons, List.mem_append] at ih ⊢
      constructor
      · rintro (rfl | h)
        · exact ⟨Or.inl rfl, by simp [File.new, hn]⟩
        · rcases ih.mp h with ⟨hmem, hname⟩
          exact ⟨Or.inr hmem, hname⟩
      · rintro ⟨rfl | hmem, hname⟩
        · exact Or.inl rfl
        · exact Or.inr (ih.mpr ⟨hmem, hname⟩)
    · rw [if_neg hn]
      simp only [List.mem_cons, List.mem_append] at ih ⊢
      constructor
      · intro h
        rcases ih.mp h with ⟨hmem, hname⟩
        exact ⟨Or.inr hmem, hname⟩
      · rintro ⟨rfl | hmem, hname⟩
        · exact absurd hname (by simp [File.new, hn])
        · exact ih.mpr ⟨hmem, hname⟩
  | .dir n mk none :: rest =>
    rw [ownMatches_dir_cons, specSubs_dir_none, allFilesL_dir_none]
    exact mem_scan_iff path file_name r rest
  | .dir n mk (some l) :: rest =>
    rw [ownMatches_dir_cons, specSubs_dir_some, allFilesL_dir_some]
    have ihl := mem_scan_iff (pathJoin path n) file_name r l
    have ihr := mem_scan_iff path file_name r rest
    simp only [List.mem_append] at ihl ihr ⊢
    constructor
    · rintro (hown | (hl | hrest))
      · rcases ihr.mp (Or.inl hown) with ⟨hmem, hname⟩
        exact ⟨Or.inr hmem, hname⟩
      · rcases ihl.mp hl with ⟨hmem, hname⟩
        exact ⟨Or.inl hmem, hname⟩
      · rcases ihr.mp (Or.inr hrest) with ⟨hmem, hname⟩
        exact ⟨Or.inr hmem, hname⟩
    · rintro ⟨hl | hrest, hname⟩
      · exact Or.inr (Or.inl (ihl.mpr ⟨hl, hname⟩))
      · rcases ihr.mpr ⟨hrest, hname⟩ with hown | hsub
        · exact Or.inl hown
        · exact Or.inr (Or.inr hsub)
termination_by sizeOf es

/-- When the chain already aborts on the tail, prepending more entries keeps
it aborting: every failure inside one chain pass is a panic, never an
`io::Error`, so the first failure met wins and it is `panicked`. -/
theorem collectOwn_append_panicked (path file_name : String) (tail : List Entry)
    (htail : collectOwn path file_name tail = .error .panicked) (es1 : List Entry) :
    collectOwn path file_name (es1 ++ tail) = .error .panicked := by
  induction es1 with
  | nil => simpa using htail
  | cons e rest ih =>
    cases e with
    | err => simpa [collectOwn] using ih
    | file n mk c =>
      cases mk with
      | false => simp [collectOwn]
      | true =>
        cases c with
        | none => simp [collectOwn]
        | some d => simp [collectOwn, ih]
    | dir n mk l =>
      cases mk with
      | false => simp [collectOwn]
      | true => simpa [collectOwn] using ih

theorem collectOwn_file_meta_err (path file_name n : String) (c : Option String)
    (rest : List Entry) :
    collectOwn path file_name (.file n false c :: rest) = .error .panicked := by
  simp [collectOwn]

theorem collectOwn_dir_meta_err (path file_name n : String) (l : Option (List Entry))
    (rest : List Entry) :
    collectOwn path file_name (.dir n false l :: rest) = .error .panicked := by
  simp [collectOwn]

theorem collectOwn_created_none (path file_name n : String) (rest : List Entry) :
    collectOwn path file_name (.file n true none :: rest) = .error .panicked := by
  simp [collectOwn]

/-- Dropping an `Err` slot of the listing does not change the chain pass. -/
theorem collectOwn_skip_err (path file_name : String) (es1 es2 : List Entry) :
    collectOwn path file_name (es1 ++ .err :: es2) =
      collectOwn path file_name (es1 ++ es2) := by
  induction es1 with
  | nil => simp [collectOwn]
  | cons e rest ih =>
    cases e with
    | err =>
      simp only [List.cons_append, collectOwn]
      exact ih
    | file n mk c =>
      cases mk with
      | false => simp [collectOwn]
      | true =>
        cases c with
        | none => simp [collectOwn]
        | some d =>
          simp only [List.cons_append, collectOwn, List.append_eq, ih]
    | dir n mk l =>
      cases mk with
      | false => simp [collectOwn]
      | true =>
        simp only [List.cons_append, collectOwn]
        exact ih

/-- Unfolding equation for the subdirectory loop at a readable directory
entry, with the three sequenced results left as matches. -/
theorem gdfSubs_dir_some_eq (path file_name n : String) (mk : Bool) (l rest : List Entry) :
    gdfSubs path file_name (.dir n mk (some l) :: rest) =
      match collectOwn (pathJoin path n) file_name l with
      | .error e => .error e
      | .ok own =>
        match gdfSubs (pathJoin path n) file_name l with
        | .error e => .error e
        | .ok subs =>
          match gdfSubs path file_name rest with
          | .error e => .error e
          | .ok r => .ok ((own ++ subs) ++ r) := by
  cases hc : collectOwn (pathJoin path n) file_name l with
  | error e => rw [gdfSubs_dir_collect_err path file_name n mk l rest e hc]
  | ok own =>
    cases hs : gdfSubs (pathJoin path n) file_name l with
    | error e => rw [gdfSubs_dir_sub_err path file_name n mk l rest own e hc hs]
    | ok subs =>
      cases hrest : gdfSubs path file_name rest with
      | error e => rw [gdfSubs_dir_rest_err path file_name n mk l rest own subs e hc hs hrest]
      | ok r => rw [gdfSubs_dir_cons path file_name n mk l rest own subs r hc hs hrest]

/-- Dropping an `Err` slot of the listing does not change the subdirectory
loop either. -/
theorem gdfSubs_skip_err (path file_name : String) (es1 es2 : List Entry) :
    gdfSubs path file_name (es1 ++ .err :: es2) = gdfSubs path file_name (es1 ++ es2) := by
  induction es1 with
  | nil =>
    rw [List.nil_append, List.nil_append, gdfSubs_err_cons]
  | cons e rest ih =>
    cases e with
    | err =>
      rw [List.cons_append, gdfSubs_err_cons, List.cons_append, gdfSubs_err_cons]
      exact ih
    | file n mk c =>
      rw [List.cons_append, gdfSubs_file_cons, List.cons_append, gdfSubs_file_cons]
      exact ih
    | dir n mk l =>
      cases l with
      | none => rw [List.cons_append, gdfSubs_dir_none, List.cons_append, gdfSubs_dir_none]
      | some ll =>
        rw [List.cons_append, gdfSubs_dir_some_eq, List.cons_append, gdfSubs_dir_some_eq, ih]

/-- Dropping an `Err` slot anywhere in the listing does not change the
traversal's result at all. -/
theorem get_dir_files_skip_err (path file_name : String) (es1 es2 : List Entry) :
    get_dir_files path file_name (some (es1 ++ .err :: es2)) =
      get_dir_files path file_name (some (es1 ++ es2)) := by
  simp only [get_dir_files, collectOwn_skip_err, gdfSubs_skip_err]

/-! Evaluation of the traversal on the example tree, staged bottom-up. -/

theorem collectOwn_egSub : collectOwn "r/sub" "dup.txt" egSub = .ok [egRec2] := by
  simp [egSub, egRec2, collectOwn, pathJoin, File.new]

theorem gdfSubs_egSub : gdfSubs "r/sub" "dup.txt" egSub = .ok [] := by
  simp only [egSub, gdfSubs_file_cons, gdfSubs_nil]

theorem collectOwn_egTree : collectOwn "r" "dup.txt" egTree = .ok [egRec1] := by
  simp [egTree, egRec1, collectOwn, pathJoin, File.new]

theorem pathJoin_r_sub : pathJoin "r" "sub" = "r/sub" := by
  simp [pathJoin]

theorem gdfSubs_egTree : gdfSubs "r" "dup.txt" egTree = .ok [egRec2] := by
  simp only [egTree, gdfSubs_file_cons]
  rw [gdfSubs_dir_cons "r" "dup.txt" "sub" true egSub [] [egRec2] [] []
    (by rw [pathJoin_r_sub]; exact collectOwn_egSub)
    (by rw [pathJoin_r_sub]; exact gdfSubs_egSub)
    (gdfSubs_nil _ _)]
  simp

theorem egTree_eval : get_dir_files "r" "dup.txt" (some egTree) = .ok [egRec1, egRec2] := by
  rw [get_dir_files_some "r" "dup.txt" egTree [egRec1] [egRec2] collectOwn_egTree gdfSubs_egTree]
  simp

/-! The claims about the traversal engine. -/

/-- C1: for every directory tree and target name, a traversal that returns
does so with exactly the files of the tree, at any depth, whose base name is
byte-equal to the target; files with a different name and all directories are
excluded. -/
theorem get_dir_files_returns_exactly_matching_files (path file_name : String)
    (root : Option (List Entry)) (fs : List File)
    (h : get_dir_files path file_name root = .ok fs) (r : File) :
    r ∈ fs ↔ (r ∈ allFiles path root ∧ r.name = file_name) := by
  match root with
  | none => rw [get_dir_files_none] at h; simp at h
  | some es =>
    rw [get_dir_files_ok path file_name (some es) fs h]
    simp only [specScan, allFiles]
    exact mem_scan_iff path file_name r es

/-- Witness for C1 on the example tree: the record of `r/dup.txt` is in the
traversal's result, and is a file of the tree whose name is the target. -/
theorem get_dir_files_returns_exactly_matching_files_witness :
    egRec1 ∈ [egRec1, egRec2] ↔ (egRec1 ∈ allFiles "r" (some egTree) ∧ egRec1.name = "dup.txt") :=
  get_dir_files_returns_exactly_matching_files "r" "dup.txt" (some egTree)
    [egRec1, egRec2] egTree_eval egRec1

/-- C5: traversal is depth-first pre-order: a successful scan of a listing
returns the scanned directory's own matching files first, in listing order,
and then each subdirectory's full recursive result, appended in listing
order. -/
theorem traversal_is_preorder (path file_name : String) (es : List Entry) (fs : List File)
    (h : get_dir_files path file_name (some es) = .ok fs) :
    fs = ownMatches path file_name es ++ specSubs path file_name es := by
  have hspec := get_dir_files_ok path file_name (some es) fs h
  simpa [specScan] using hspec

/-- Witness for C5 on the example tree: the root's own match precedes the
subdirectory's match. -/
theorem traversal_is_preorder_witness :
    [egRec1, egRec2] = ownMatches "r" "dup.txt" egTree ++ specSubs "r" "dup.txt" egTree :=
  traversal_is_preorder "r" "dup.txt" egTree [egRec1, egRec2] egTree_eval

/-- C7: when the root path cannot be read, the traversal returns the
`io::Error` to the caller (so there is no result list at all, hence no
partial results). -/
theorem unreadable_root_gives_ioError (path file_name : String) :
    get_dir_files path file_name none = .error .ioError :=
  get_dir_files_none path file_name

/-- C8: constructing a file record via `File::new` and reading back its
fields returns exactly the four arguments; the construction is plain field
assignment. -/
theorem file_new_roundtrip (name folder creation_date path : String) :
    (File.new name folder creation_date path).name = name ∧
    (File.new name folder creation_date path).folder = folder ∧
    (File.new name folder creation_date path).creation_date = creation_date ∧
    (File.new name folder creation_date path).path = path ∧
    File.new name folder creation_date path = File.mk name folder creation_date path :=
  ⟨rfl, rfl, rfl, rfl, rfl⟩

/-- C9: the chain queries and formats the creation time of every regular file
of the scanned directory before the name filter runs, so a file whose
creation time is unavailable — whatever its name, matching or not — makes the
traversal abort with a panic (`unwrap` at lib.rs 236), not with an
`io::Error`. -/
theorem created_none_panics_even_nonmatching (path file_name n : String)
    (es1 es2 : List Entry) :
    get_dir_files path file_name (some (es1 ++ .file n true none :: es2)) =
      .error .panicked :=
  get_dir_files_collect_err path file_name _ _
    (collectOwn_append_panicked path file_name _
      (collectOwn_created_none path file_name n es2) es1)

/-- Counterexample for C2: a directory whose first entry has a failing
metadata query (`metaOk = false`) and whose second entry is a matching,
healthy file. The claim predicts the bad entry is silently skipped and
traversal continues, which would give the same result as scanning without
it — the `Ok` on the right. The code instead panics at
`d.metadata().unwrap()` (lib.rs 220): the traversal crashes and the healthy
entry is never reported. -/
theorem metadata_err_not_skipped_counterexample :
    get_dir_files "." "a" (some [.file "b" false (some "d"), .file "a" true (some "d")]) =
      .error .panicked ∧
    get_dir_files "." "a" (some [.file "a" true (some "d")]) =
      .ok [File.new "a" "." "d" "./a"] ∧
    Except.error FsError.panicked ≠
      (Except.ok [File.new "a" "." "d" "./a"] : Except FsError (List File)) := by
  refine ⟨?_, ?_, by simp⟩
  · exact get_dir_files_collect_err "." "a" _ _ (collectOwn_file_meta_err "." "a" "b" _ _)
  · rw [get_dir_files_some "." "a" _ [File.new "a" "." "d" "./a"] []
      (by simp [collectOwn, pathJoin, File.new])
      (by simp only [gdfSubs_file_cons, gdfSubs_nil])]
    simp

/-- C2 amended: the entries that the traversal silently skips are the slots
for which the directory iterator itself yields `Err` (dropped by
`.filter(|f| f.is_ok())`, lib.rs 216) — removing such a slot anywhere in a
listing leaves the result unchanged. An entry whose metadata query fails is
not skipped: whether it is a file or a directory, `d.metadata().unwrap()`
(lib.rs 220) panics, crashing the traversal. -/
theorem metadata_err_amended :
    (∀ (path file_name : String) (es1 es2 : List Entry),
      get_dir_files path file_name (some (es1 ++ .err :: es2)) =
        get_dir_files path file_name (some (es1 ++ es2))) ∧
    (∀ (path file_name n : String) (c : Option String) (es1 es2 : List Entry),
      get_dir_files path file_name (some (es1 ++ .file n false c :: es2)) =
        .error .panicked) ∧
    (∀ (path file_name n : String) (l : Option (List Entry)) (es1 es2 : List Entry),
      get_dir_files path file_name (some (es1 ++ .dir n false l :: es2)) =
        .error .panicked) := by
  refine ⟨fun path file_name es1 es2 => get_dir_files_skip_err path file_name es1 es2,
    fun path file_name n c es1 es2 => ?_, fun path file_name n l es1 es2 => ?_⟩
  · exact get_dir_files_collect_err path file_name _ _
      (collectOwn_append_panicked path file_name _
        (collectOwn_file_meta_err path file_name n c es2) es1)
  · exact get_dir_files_collect_err path file_name _ _
      (collectOwn_append_panicked path file_name _
        (collectOwn_dir_meta_err path file_name n l es2) es1)

/-! The claims about the interactive controller. -/

theorem parseUsize_done : parseUsize "done" = none := by
  simp [parseUsize]

/-- C10: in the deletion loop, every trimmed input other than `done` that
does not parse as an unsigned integer — `-1` among them — prints "Invalid
number provided." and re-prompts, removing no record and not ending the
loop; and a parse can only succeed for values representable as a 64-bit
`usize`, so the out-of-range branch is reachable only for such inputs. -/
theorem nonnumeric_input_reprompts (s : LoopState) (line : String) (rest : List String)
    (hd : strTrim line ≠ "done") (hp : parseUsize (strTrim line) = none) :
    deletionLoop s (line :: rest) =
      deletionLoop { s with out := s.out ++ ["Invalid number provided."] } rest ∧
    parseUsize "-1" = none ∧
    (∀ (str : String) (v : Nat), parseUsize str = some v → v ≤ USIZE_MAX) := by
  refine ⟨?_, by simp [parseUsize], ?_⟩
  · simp only [deletionLoop]
    rw [if_neg hd, hp]
  · intro str v hv
    simp only [parseUsize] at hv
    split at hv
    · exact absurd hv (by simp)
    · split at hv
      · split at hv
        · simp only [Option.some.injEq] at hv
          omega
        · exact absurd hv (by simp)
      · exact absurd hv (by simp)

/-- Witness for C10: with one record listed, the input `-1` is rejected with
the invalid-input message and the loop goes on reading input. -/
theorem nonnumeric_input_reprompts_witness :
    deletionLoop ⟨[egRec1], ["r/dup.txt"], []⟩ ["-1", "done"] =
      deletionLoop ⟨[egRec1], ["r/dup.txt"], [] ++ ["Invalid number provided."]⟩ ["done"] :=
  (nonnumeric_input_reprompts ⟨[egRec1], ["r/dup.txt"], []⟩ "-1" ["done"]
    (by simp [strTrim]) (by simp [strTrim, parseUsize])).1

/-- C3: a numeric response outside `[1, n]` — `0` or any number above the
`n` remaining records — prints "Please provide one of the listed numbers!"
and ends the whole deletion loop with no record removed and the filesystem
untouched; the loop ends by `break`, so the run still returns `Ok(())`. -/
theorem out_of_range_terminates_loop (s : LoopState) (line : String) (rest : List String)
    (i : Nat) (hp : parseUsize (strTrim line) = some i)
    (hoor : i = 0 ∨ s.files.length < i) :
    deletionLoop s (line :: rest) =
      .finished { s with out := s.out ++ ["Please provide one of the listed numbers!"] } ∧
    loopToRun (deletionLoop s (line :: rest)) =
      .ok { s with out := s.out ++ ["Please provide one of the listed numbers!"] } := by
  have hd : strTrim line ≠ "done" := by
    intro hcontra
    rw [hcontra, parseUsize_done] at hp
    exact absurd hp (by simp)
  have hguard : i ≥ s.files.length + 1 ∨ i ≤ 0 := by omega
  have h1 : deletionLoop s (line :: rest) =
      .finished { s with out := s.out ++ ["Please provide one of the listed numbers!"] } := by
    simp only [deletionLoop]
    rw [if_neg hd, hp]
    simp only [if_pos hguard]
  exact ⟨h1, by rw [h1]; rfl⟩

/-- Witness for C3: with one record listed, the response `2` is out of range:
the loop ends at once, the record and the file both survive, and the loop
result folds into a successful run. -/
theorem out_of_range_terminates_loop_witness :
    deletionLoop ⟨[egRec1], ["r/dup.txt"], []⟩ ["2"] =
      .finished ⟨[egRec1], ["r/dup.txt"], [] ++ ["Please provide one of the listed numbers!"]⟩ :=
  (out_of_range_terminates_loop ⟨[egRec1], ["r/dup.txt"], []⟩ "2" [] 2
    (by simp [strTrim, parseUsize, USIZE_MAX]) (by simp)).1

/-- C4: a valid 1-based index `i` removes the `i`-th record by moving the
last record into the vacated slot (`Vec::swap_remove`), deletes that record's
path from the filesystem, shrinks the collection by exactly one, and the loop
continues on the mutated collection with the remaining input. -/
theorem valid_index_swap_removes_and_deletes (s : LoopState) (line : String)
    (rest : List String) (i : Nat) (r : File)
    (hp : parseUsize (strTrim line) = some i) (h1 : 1 ≤ i)
    (hr : s.files[i - 1]? = some r) (hfs : r.path ∈ s.fs) :
    deletionLoop s (line :: rest) =
      deletionLoop { files := (s.files.set (i - 1) (s.files.getLastD r)).dropLast,
                     fs := s.fs.erase r.path,
                     out := s.out ++ ["File deleted!"] } rest ∧
    ((s.files.set (i - 1) (s.files.getLastD r)).dropLast).length = s.files.length - 1 := by
  have hd : strTrim line ≠ "done" := by
    intro hcontra
    rw [hcontra, parseUsize_done] at hp
    exact absurd hp (by simp)
  have hlt : i - 1 < s.files.length := by
    rcases List.getElem?_eq_some.mp hr with ⟨h, -⟩
    exact h
  have hguard : ¬(i ≥ s.files.length + 1 ∨ i ≤ 0) := by omega
  have hsw : swapRemove s.files (i - 1) =
      some (r, (s.files.set (i - 1) (s.files.getLastD r)).dropLast) := by
    simp [swapRemove, hr]
  constructor
  · simp only [deletionLoop]
    rw [if_neg hd, hp]
    simp only [if_neg hguard, hsw]
    rw [if_pos hfs]
  · simp [List.length_set, hlt]

/-- Witness for C4: with the single record listed, the response `1` swap
removes it, erases its path from the filesystem, leaves zero records, and
the loop goes on reading input. -/
theorem valid_index_swap_removes_and_deletes_witness :
    deletionLoop ⟨[egRec1], ["r/dup.txt"], []⟩ ["1", "done"] =
      deletionLoop { files := (([egRec1].set 0 ([egRec1].getLastD egRec1))).dropLast,
                     fs := ["r/dup.txt"].erase egRec1.path,
                     out := [] ++ ["File deleted!"] } ["done"] ∧
    ((([egRec1].set 0 ([egRec1].getLastD egRec1))).dropLast).length = [egRec1].length - 1 :=
  valid_index_swap_removes_and_deletes ⟨[egRec1], ["r/dup.txt"], []⟩ "1" ["done"] 1 egRec1
    (by simp [strTrim, parseUsize, USIZE_MAX]) (by simp)
    (by simp) (by simp [egRec1, File.new])

/-- C6: a trimmed `y` at the keep-all prompt ends the session successfully
with no deletions — the filesystem state is returned unchanged, so every
discovered file still exists — while any other answer enters the deletion
loop on the discovered records. -/
theorem keep_all_leaves_fs_unchanged (a dir : String) (argsRest : List String)
    (root : Option (List Entry)) (fs : List String) (nameLine answer : String)
    (rest : List String) (files : List File)
    (hscan : get_dir_files dir (strTrim nameLine) root = .ok files) :
    (strTrim answer = "y" →
      run (a :: dir :: argsRest) root fs (nameLine :: answer :: rest) =
        .ok { files := files, fs := fs, out := displayEntries files ++ ["Good Bye!"] }) ∧
    (strTrim answer ≠ "y" →
      run (a :: dir :: argsRest) root fs (nameLine :: answer :: rest) =
        loopToRun (deletionLoop { files := files, fs := fs, out := displayEntries files }
          rest)) := by
  constructor
  · intro hy
    simp only [run, hscan]
    rw [if_pos hy]
  · intro hy
    simp only [run, hscan]
    rw [if_neg hy]

/-- Witness for C6: on the example tree, answering `y` returns `Ok(())` with
the filesystem exactly as it was. -/
theorem keep_all_leaves_fs_unchanged_witness :
    run ["prog", "r"] (some egTree) ["r/dup.txt", "r/sub/dup.txt"] ["dup.txt", "y"] =
      .ok { files := [egRec1, egRec2], fs := ["r/dup.txt", "r/sub/dup.txt"],
            out := displayEntries [egRec1, egRec2] ++ ["Good Bye!"] } :=
  (keep_all_leaves_fs_unchanged "prog" "r" [] (some egTree) ["r/dup.txt", "r/sub/dup.txt"]
    "dup.txt" "y" [] [egRec1, egRec2]
    (by rw [show strTrim "dup.txt" = "dup.txt" by simp [strTrim]]; exact egTree_eval)).1
    (by simp [strTrim])

end DirCleaner
